import Mathlib

/-!
Verification development for the finbot stock-analysis core.

The repository ships the React presentation layer (src/unnamed/part_000,
src/unnamed/part_002, src/stock-ui/src/App.jsx) and a setup guide
(src/unnamed/part_001).  The algorithmic core — the long-only backtester
(engine/backtest.py) and the signal aggregator (engine/aggregator.py) — is
referenced by the guide and consumed by the dashboards but its code is not
part of the supplied sources, so those two components are modelled from the
specification, as flagged in each doc comment.  Floating point arithmetic is
modelled by exact rationals.
-/

namespace Finbot

/-- Modelled from the spec: PriceBar (§3) — one trading session,
`{date, open, high, low, close}`.  The `open` field is a Lean keyword and is
stored as `open_`.  Dates are abstracted to naturals (ascending order is all
the core inspects). -/
structure PriceBar where
  date : ℕ
  open_ : ℚ
  high : ℚ
  low : ℚ
  close : ℚ
deriving DecidableEq, Repr

/-- Modelled from the spec: SignalPoint (§3) — per-bar tag from
`{entry, exit, none}` aligned 1:1 with the price bars. -/
inductive SignalPoint where
  | entry
  | exit
  | none
deriving DecidableEq, Repr

/-- Modelled from the spec: the single open position the backtester carries
(§4.1, at most one open position, long-only).  `entry_index` records the bar
on which the entry signal fired; the fill itself is at the following bar's
open (§4.1), whose price is stored in `entry_price`.  This reading is forced
by the spec as a whole: §8 demands that no trade ever has
`entry_index = len(prices) - 1`, and §3 demands `exit_index > entry_index`,
both of which fail if `entry_index` recorded the fill bar (a signal on bar
`len - 2` legitimately fills at bar `len - 1`). -/
structure OpenPosition where
  entry_index : ℕ
  entry_price : ℚ
deriving DecidableEq, Repr

/-- Modelled from the spec: Trade (§3) — one completed round-trip.
`pct_return` is net of commission on both legs and is delivered in
percentage units, already multiplied by 100 (§6); the dashboards divide it
back by 100 when compounding. -/
structure Trade where
  entry_index : ℕ
  entry_price : ℚ
  exit_index : ℕ
  exit_price : ℚ
  pct_return : ℚ
  hold_days : ℕ
deriving DecidableEq, Repr

/-- Modelled from the spec: closing a round trip (§4.1).  Realized trade
return is `(exit_price / entry_price - 1) - 2 * commission` (commission
deducted once per leg), scaled to percentage units. -/
def closeTrade (pos : OpenPosition) (exitIdx : ℕ) (exitPrice : ℚ)
    (commission : ℚ) : Trade :=
  { entry_index := pos.entry_index
    entry_price := pos.entry_price
    exit_index := exitIdx
    exit_price := exitPrice
    pct_return := ((exitPrice / pos.entry_price - 1) - 2 * commission) * 100
    hold_days := exitIdx - pos.entry_index }

/-- Modelled from the spec: one iteration of the backtest loop (§4.1).
On bar `i` with an entry signal while flat, open a position filled at bar
`i + 1`'s open; while long, on an exit signal, close at bar `i + 1`'s open.
All other combinations leave the state unchanged. -/
def step (prices : List PriceBar) (signals : List SignalPoint)
    (commission : ℚ) (i : ℕ) (pos : Option OpenPosition)
    (trades : List Trade) : Option OpenPosition × List Trade :=
  match pos, (signals[i]?).getD SignalPoint.none, prices[i + 1]? with
  | Option.none, SignalPoint.entry, some bar =>
      (some { entry_index := i, entry_price := bar.open_ }, trades)
  | some p, SignalPoint.exit, some bar =>
      (Option.none, trades ++ [closeTrade p i bar.open_ commission])
  | _, _, _ => (pos, trades)

/-- Modelled from the spec: the bar-by-bar simulation loop (§4.1), running
`fuel` iterations starting at bar index `i` (the caller passes
`fuel = len(prices) - 1`, so a signal on the last bar is never acted on —
there is no next open to fill at). -/
def loop (prices : List PriceBar) (signals : List SignalPoint)
    (commission : ℚ) :
    ℕ → ℕ → Option OpenPosition → List Trade →
      Option OpenPosition × List Trade
  | 0, _, pos, trades => (pos, trades)
  | fuel + 1, i, pos, trades =>
      let st := step prices signals commission i pos trades
      loop prices signals commission fuel (i + 1) st.1 st.2

/-- Modelled from the spec: full trade simulation (§4.1).  Bars
`0 .. len - 2` are scanned for signals; a position still open at series end
is force-closed at the last bar's close. -/
def simulateTrades (prices : List PriceBar) (signals : List SignalPoint)
    (commission : ℚ) : List Trade :=
  match loop prices signals commission (prices.length - 1) 0 Option.none [],
      prices.getLast? with
  | (some pos, trades), some lastBar =>
      trades ++ [closeTrade pos (prices.length - 1) lastBar.close commission]
  | (some _, trades), Option.none => trades
  | (Option.none, trades), _ => trades

/-- Modelled from the spec: the per-trade equity growth factor used when
compounding returns (§4.1); `pct_return` is in percentage units. -/
def growthFactor (t : Trade) : ℚ :=
  1 + t.pct_return / 100

/-- Modelled from the spec: number of winning trades — trades with
`pct_return > 0` (§3). -/
def winners (trades : List Trade) : ℕ :=
  (trades.filter (fun t => 0 < t.pct_return)).length

/-- Modelled from the spec: `win_rate_pct` (§3) — winning trades divided by
`n_trades`, as a percentage; reported as the zero sentinel for zero trades
(never divide by zero, §4.1). -/
def winRatePct (trades : List Trade) : ℚ :=
  if trades.isEmpty then 0
  else 100 * (winners trades : ℚ) / (trades.length : ℚ)

/-- Modelled from the spec: `total_return_pct` (§4.1) — compounded product
of the per-trade growth factors, expressed as a percentage gain (the gain of
the documented 10,000-unit notional starting capital). -/
def totalReturnPct (trades : List Trade) : ℚ :=
  ((trades.map growthFactor).prod - 1) * 100

/-- Modelled from the spec: `buy_hold_return_pct` (§4.1) — simple return of
holding from the first bar's close to the last bar's close. -/
def buyHoldReturnPct (prices : List PriceBar) : ℚ :=
  match prices.head?, prices.getLast? with
  | some first, some lastBar => (lastBar.close / first.close - 1) * 100
  | _, _ => 0

/-- Modelled from the spec: one step of the peak-to-trough scan over the
compounded equity curve (§4.1), carrying (equity, running peak, running
max drawdown in percent). -/
def drawdownStep (st : ℚ × ℚ × ℚ) (t : Trade) : ℚ × ℚ × ℚ :=
  let e := st.1 * growthFactor t
  let peak := max st.2.1 e
  (e, peak, max st.2.2 ((peak - e) / peak * 100))

/-- Modelled from the spec: `max_drawdown_pct` (§4.1) — largest
peak-to-trough decline of the equity curve compounded from the 10,000-unit
starting capital; zero sentinel for zero trades. -/
def maxDrawdownPct (trades : List Trade) : ℚ :=
  (trades.foldl drawdownStep (10000, 10000, 0)).2.2

/-- Modelled from the spec: `avg_hold_days` (§4.1) — mean of
`exit_index - entry_index` across trades; zero sentinel for zero trades. -/
def avgHoldDays (trades : List Trade) : ℚ :=
  if trades.isEmpty then 0
  else (trades.map (fun t => (t.hold_days : ℚ))).sum / (trades.length : ℚ)

/-- Modelled from the spec: mean trade return, zero for no trades. -/
def meanReturn (trades : List Trade) : ℚ :=
  if trades.isEmpty then 0
  else (trades.map Trade.pct_return).sum / (trades.length : ℚ)

/-- Modelled from the spec: `sharpe_ratio` (§4.1) — mean trade return over
the standard deviation of trade returns.  The spec leaves the deviation
convention and annualization open (§9); this model uses the population
variance and the rational square-root approximation `Rat.sqrt`, with no
annualization.  Only the zero-trade sentinel is claim-relevant. -/
def sharpeRatioMetric (trades : List Trade) : ℚ :=
  if trades.isEmpty then 0
  else
    let m := meanReturn trades
    let venn := (trades.map (fun t => (t.pct_return - m) ^ 2)).sum /
      (trades.length : ℚ)
    if Rat.sqrt venn = 0 then 0 else m / Rat.sqrt venn

/-- Modelled from the spec: BacktestResult (§3) — derived entirely from the
trade list plus the raw price series. -/
structure BacktestResult where
  win_rate_pct : ℚ
  n_trades : ℕ
  total_return_pct : ℚ
  buy_hold_return_pct : ℚ
  sharpe_ratio : ℚ
  max_drawdown_pct : ℚ
  avg_hold_days : ℚ
  trades : List Trade
deriving DecidableEq, Repr

/-- Modelled from the spec: the backtester error taxonomy (§7) —
`InsufficientDataError` for fewer than two bars, `ValidationError` for
malformed or misaligned input. -/
inductive BacktestError where
  | insufficientData
  | validation
deriving DecidableEq, Repr

/-- Modelled from the spec: dates are strictly ascending, no duplicates
(§3); violation is a `ValidationError` (§4.1). -/
def datesAscending : List PriceBar → Bool
  | [] => true
  | [_] => true
  | a :: b :: rest => decide (a.date < b.date) && datesAscending (b :: rest)

/-- Modelled from the spec: assembling the BacktestResult from the simulated
trade list (§4.1). -/
def mkResult (prices : List PriceBar) (signals : List SignalPoint)
    (commission : ℚ) : BacktestResult :=
  let trades := simulateTrades prices signals commission
  { win_rate_pct := winRatePct trades
    n_trades := trades.length
    total_return_pct := totalReturnPct trades
    buy_hold_return_pct := buyHoldReturnPct prices
    sharpe_ratio := sharpeRatioMetric trades
    max_drawdown_pct := maxDrawdownPct trades
    avg_hold_days := avgHoldDays trades
    trades := trades }

/-- Modelled from the spec: `run` (§4.1) — the backtester contract.  Fewer
than two bars is `InsufficientDataError`; misaligned series lengths or
non-monotonic dates are a `ValidationError`; otherwise the result is a pure
function of the inputs. -/
def run (prices : List PriceBar) (signals : List SignalPoint)
    (commission : ℚ) : Except BacktestError BacktestResult :=
  if prices.length < 2 then Except.error BacktestError.insufficientData
  else if signals.length ≠ prices.length then
    Except.error BacktestError.validation
  else if ¬ datesAscending prices then Except.error BacktestError.validation
  else Except.ok (mkResult prices signals commission)

/-! ### Aggregator

The signal aggregator (engine/aggregator.py) is likewise not under src/ and
is modelled from §4.2 of the specification. -/

/-- Modelled from the spec: the category signal labels (§3) —
`buy|hold|sell` for the technical category, `bullish|neutral|bearish` for
fundamentals and valuation. -/
inductive CategorySignal where
  | buy
  | hold
  | sell
  | bullish
  | neutral
  | bearish
deriving DecidableEq, Repr

/-- Modelled from the spec: the signal-to-score mapping table (§4.2) —
buy/bullish map to +1, hold/neutral to 0, sell/bearish to -1. -/
def signalScore : CategorySignal → ℚ
  | CategorySignal.buy => 1
  | CategorySignal.bullish => 1
  | CategorySignal.hold => 0
  | CategorySignal.neutral => 0
  | CategorySignal.sell => -1
  | CategorySignal.bearish => -1

/-- Modelled from the spec: CategoryScore (§3) — a signal label plus an
optional pre-computed numeric score in [-1, 1]; when only the label arrives,
the §4.2 mapping supplies the number. -/
structure CategoryScore where
  signal : CategorySignal
  numeric_score : Option ℚ
deriving DecidableEq, Repr

/-- Modelled from the spec: the numeric value a category contributes — its
pre-computed score when present, otherwise the mapped label (§4.2). -/
def effectiveScore (c : CategoryScore) : ℚ :=
  (c.numeric_score).getD (signalScore c.signal)

/-- Modelled from the spec: the three category weights as an explicit
configuration structure (§9), validated to sum to 1. -/
structure Weights where
  technical : ℚ
  fundamental : ℚ
  valuation : ℚ
deriving DecidableEq, Repr

/-- Modelled from the spec: default weights — technical 0.35,
fundamental 0.35, valuation 0.30 (§4.2). -/
def defaultWeights : Weights :=
  { technical := 35 / 100, fundamental := 35 / 100, valuation := 30 / 100 }

/-- Modelled from the spec: the weighted composite score (§4.2),
`sum of weight_c * numeric_score_c` over the three categories. -/
def compositeScore (t f v : CategoryScore) (w : Weights) : ℚ :=
  w.technical * effectiveScore t + w.fundamental * effectiveScore f +
    w.valuation * effectiveScore v

/-- Modelled from the spec: Verdict labels (§3). -/
inductive VerdictLabel where
  | BUY
  | HOLD
  | SELL
deriving DecidableEq, Repr

/-- Modelled from the spec: the fixed decision thresholds (§4.2) —
`> 0.15` is BUY, `< -0.15` is SELL, otherwise HOLD. -/
def verdictLabel (s : ℚ) : VerdictLabel :=
  if 15 / 100 < s then VerdictLabel.BUY
  else if s < -(15 / 100) then VerdictLabel.SELL
  else VerdictLabel.HOLD

/-- Modelled from the spec: the confidence transform (§4.2) — the exact
curve is an implementation choice (§9); this model uses the floor of
`|composite| * 100`, clamped to [0, 100].  No claim constrains it. -/
def confidencePct (s : ℚ) : ℕ :=
  min 100 (Int.toNat ⌊|s| * 100⌋)

/-- Modelled from the spec: Verdict (§3) — composite score, discrete label
and confidence percentage. -/
structure Verdict where
  composite_score : ℚ
  label : VerdictLabel
  confidence_pct : ℕ
deriving DecidableEq, Repr

/-- Modelled from the spec: the aggregator error (§7) —
`ConfigurationError` when the weights do not sum to 1. -/
inductive AggregatorError where
  | configuration
deriving DecidableEq, Repr

/-- Modelled from the spec: `aggregate` (§4.2) — weight validation, then the
weighted composite score mapped through the fixed thresholds. -/
def aggregate (t f v : CategoryScore) (w : Weights) :
    Except AggregatorError Verdict :=
  if w.technical + w.fundamental + w.valuation ≠ 1 then
    Except.error AggregatorError.configuration
  else
    let s := compositeScore t f v w
    Except.ok
      { composite_score := s, label := verdictLabel s,
        confidence_pct := confidencePct s }

/-! ### Dashboard helpers

These definitions are embedded directly from the shipped React sources. -/

/-- ASCII lowercasing of one character, the behaviour of JavaScript
`toLowerCase` on the ASCII signal labels the dashboards handle. -/
def lowerChar (c : Char) : Char :=
  if 'A' ≤ c ∧ c ≤ 'Z' then Char.ofNat (c.toNat + 32) else c

/-- ASCII uppercasing of one character, the behaviour of JavaScript
`toUpperCase` on the ASCII signal labels the dashboards handle. -/
def upperChar (c : Char) : Char :=
  if 'a' ≤ c ∧ c ≤ 'z' then Char.ofNat (c.toNat - 32) else c

/-- JavaScript `String.prototype.toLowerCase`, modelled character-wise on
the ASCII range. -/
def jsToLowerCase (s : String) : String :=
  String.mk (s.data.map lowerChar)

/-- JavaScript `String.prototype.toUpperCase`, modelled character-wise on
the ASCII range. -/
def jsToUpperCase (s : String) : String :=
  String.mk (s.data.map upperChar)

/-- Colour class set of the SIGNAL_COLORS table
(src/unnamed/part_000 lines 6-13). -/
structure SigColor where
  bg : String
  border : String
  text : String
  dot : String
deriving DecidableEq, Repr

/-- The amber/neutral colour set, the fallback of `sigColors`
(src/unnamed/part_000 line 10). -/
def SIGNAL_COLORS_neutral : SigColor :=
  { bg := "bg-amber-500/15", border := "border-amber-500/40",
    text := "text-amber-400", dot := "bg-amber-400" }

/-- The emerald colour set shared by buy and bullish
(src/unnamed/part_000 lines 7-8). -/
def SIGNAL_COLORS_buy : SigColor :=
  { bg := "bg-emerald-500/15", border := "border-emerald-500/40",
    text := "text-emerald-400", dot := "bg-emerald-400" }

/-- The red colour set shared by sell and bearish
(src/unnamed/part_000 lines 11-12). -/
def SIGNAL_COLORS_sell : SigColor :=
  { bg := "bg-red-500/15", border := "border-red-500/40",
    text := "text-red-400", dot := "bg-red-400" }

/-- The SIGNAL_COLORS lookup table (src/unnamed/part_000 lines 6-13),
as a partial map from key strings. -/
def SIGNAL_COLORS (key : String) : Option SigColor :=
  if key = "buy" then some SIGNAL_COLORS_buy
  else if key = "bullish" then some SIGNAL_COLORS_buy
  else if key = "hold" then some SIGNAL_COLORS_neutral
  else if key = "neutral" then some SIGNAL_COLORS_neutral
  else if key = "sell" then some SIGNAL_COLORS_sell
  else if key = "bearish" then some SIGNAL_COLORS_sell
  else Option.none

/-- The `sigColors` helper (src/unnamed/part_000 line 14):
`SIGNAL_COLORS[(s || "").toLowerCase()] || SIGNAL_COLORS.neutral`.
A JavaScript signal value is modelled as `Option String`; `undefined` and
`null` are `Option.none`, and the empty string is falsy, so both collapse to
the empty key, which misses the table and lands on the neutral fallback. -/
def sigColors (s : Option String) : SigColor :=
  (SIGNAL_COLORS (jsToLowerCase (s.getD ""))).getD SIGNAL_COLORS_neutral

/-- The `sigLabel` helper (src/unnamed/part_000 line 15):
`(s || "neutral").toUpperCase()`. -/
def sigLabel (s : Option String) : String :=
  jsToUpperCase
    (match s with
     | Option.none => "neutral"
     | some str => if str = "" then "neutral" else str)

/-- Colour class set of the SIG table, which also carries a hex colour for
the charts (src/unnamed/part_002 lines 12-19; identical in
src/stock-ui/src/App.jsx). -/
structure SigColorHex where
  bg : String
  border : String
  text : String
  dot : String
  hex : String
deriving DecidableEq, Repr

/-- The amber/neutral entry of SIG (src/unnamed/part_002 line 16). -/
def SIG_neutral : SigColorHex :=
  { bg := "bg-amber-500/15", border := "border-amber-500/40",
    text := "text-amber-400", dot := "bg-amber-400", hex := "#f59e0b" }

/-- The emerald entry of SIG shared by buy and bullish
(src/unnamed/part_002 lines 13-14). -/
def SIG_buy : SigColorHex :=
  { bg := "bg-emerald-500/15", border := "border-emerald-500/40",
    text := "text-emerald-400", dot := "bg-emerald-400", hex := "#10b981" }

/-- The red entry of SIG shared by sell and bearish
(src/unnamed/part_002 lines 17-18). -/
def SIG_sell : SigColorHex :=
  { bg := "bg-red-500/15", border := "border-red-500/40",
    text := "text-red-400", dot := "bg-red-400", hex := "#ef4444" }

/-- The SIG lookup table (src/unnamed/part_002 lines 12-19). -/
def SIG (key : String) : Option SigColorHex :=
  if key = "buy" then some SIG_buy
  else if key = "bullish" then some SIG_buy
  else if key = "hold" then some SIG_neutral
  else if key = "neutral" then some SIG_neutral
  else if key = "sell" then some SIG_sell
  else if key = "bearish" then some SIG_sell
  else Option.none

/-- The `sc` helper (src/unnamed/part_002 line 20 and
src/stock-ui/src/App.jsx line 20):
`SIG[(s || "").toLowerCase()] || SIG.neutral`. -/
def sc (s : Option String) : SigColorHex :=
  (SIG (jsToLowerCase (s.getD ""))).getD SIG_neutral

/-- The `sl` helper (src/unnamed/part_002 line 21 and
src/stock-ui/src/App.jsx line 21): `(s || "neutral").toUpperCase()`. -/
def sl (s : Option String) : String :=
  jsToUpperCase
    (match s with
     | Option.none => "neutral"
     | some str => if str = "" then "neutral" else str)

/-- The equity fold the dashboard EquityCurve component performs
(src/unnamed/part_002 lines 126-130, identically in
src/stock-ui/src/App.jsx): starting from 10000,
`equity := equity * (1 + t.pct_return / 100)` per trade, in order. -/
def dashboardFinalEquity (trades : List Trade) : ℚ :=
  trades.foldl (fun e t => e * (1 + t.pct_return / 100)) 10000

/-! ### Serialized response objects

The backend tool handlers that serialize results for the dashboards are not
under src/; the field names are modelled from §6 of the specification, while
the field names each dashboard component dereferences are transcribed from
the shipped React sources. -/

/-- A JSON-like value, the shape exchanged with the presentation layer. -/
inductive JValue where
  | num (q : ℚ)
  | str (s : String)
  | arr (xs : List JValue)
  | obj (fields : List (String × JValue))

/-- Keys of an object value. -/
def jsonKeys : JValue → List String
  | JValue.obj fields => fields.map Prod.fst
  | _ => []

/-- Field lookup on an object value. -/
def objLookup (v : JValue) (k : String) : Option JValue :=
  match v with
  | JValue.obj fields => (fields.find? (fun p => p.1 == k)).map Prod.snd
  | _ => Option.none

/-- Modelled from the spec: serialization of one trade inside the nested
trade list of a tool response (§6). -/
def serializeTrade (t : Trade) : JValue :=
  JValue.obj
    [("entry_index", JValue.num t.entry_index),
     ("entry_price", JValue.num t.entry_price),
     ("exit_index", JValue.num t.exit_index),
     ("exit_price", JValue.num t.exit_price),
     ("pct_return", JValue.num t.pct_return),
     ("hold_days", JValue.num t.hold_days)]

/-- Modelled from the spec: the backtest object embedded in a technical-tool
response, carrying the §6 field names `win_rate_%`, `n_trades`,
`total_return_%`, `buy_hold_%` and the nested trade list, with the
percentage fields taken verbatim from the already-×100 metrics. -/
def serializeBacktest (r : BacktestResult) : JValue :=
  JValue.obj
    [("win_rate_%", JValue.num r.win_rate_pct),
     ("n_trades", JValue.num (r.n_trades : ℚ)),
     ("total_return_%", JValue.num r.total_return_pct),
     ("buy_hold_%", JValue.num r.buy_hold_return_pct),
     ("trades", JValue.arr (r.trades.map serializeTrade))]

/-- The verdict label rendered as the string the dashboards switch on. -/
def labelString : VerdictLabel → String
  | VerdictLabel.BUY => "BUY"
  | VerdictLabel.HOLD => "HOLD"
  | VerdictLabel.SELL => "SELL"

/-- Modelled from the spec: a technical entry of `indicator_breakdown` in
the full-analysis response (§6), carrying `backtest_win_rate_pct` and
`backtest_trades`. -/
def serializeTAEntry (signal : String) (r : BacktestResult) : JValue :=
  JValue.obj
    [("signal", JValue.str signal),
     ("backtest_win_rate_pct", JValue.num r.win_rate_pct),
     ("backtest_trades", JValue.num (r.n_trades : ℚ))]

/-- Modelled from the spec: a valuation entry of `indicator_breakdown` in
the full-analysis response (§6), carrying `gap_pct`. -/
def serializeGapEntry (signal : String) (gap : ℚ) : JValue :=
  JValue.obj
    [("signal", JValue.str signal),
     ("gap_pct", JValue.num gap)]

/-- Modelled from the spec: the full-analysis response envelope (§6) with
`ai_verdict`, `ai_confidence` and `indicator_breakdown`. -/
def serializeFullAnalysis (v : Verdict)
    (breakdown : List (String × JValue)) : JValue :=
  JValue.obj
    [("ai_verdict", JValue.str (labelString v.label)),
     ("ai_confidence", JValue.num (v.confidence_pct : ℚ)),
     ("indicator_breakdown", JValue.obj breakdown)]

/-- Field names the IndicatorCard component dereferences on an
`indicator_breakdown` entry (src/unnamed/part_000 lines 57-97). -/
def indicatorCardReads : List String :=
  ["signal", "backtest_win_rate_pct", "backtest_trades", "gap_pct"]

/-- Field names WinRateChart and EquityCurve dereference on a backtest
object (src/unnamed/part_002 lines 88-162 and the ToolViz dispatch at lines
339-350). -/
def backtestObjectReads : List String :=
  ["win_rate_%", "n_trades", "total_return_%", "buy_hold_%", "trades"]

/-- Field names VerdictCard and the get_full_analysis branch of ToolViz
dereference on the response envelope (src/unnamed/part_002 lines 276-390,
src/unnamed/part_000 lines 99-170). -/
def fullAnalysisReads : List String :=
  ["ai_verdict", "ai_confidence", "indicator_breakdown"]

/-! ### Invariant predicates for the backtest loop -/

/-- Well-formedness of a produced trade with respect to the inputs: the
entry signal fired on bar `entry_index` strictly before the last bar and
was filled at the next bar's open; the return carries both commission legs
in percentage units; the exit either came from an exit signal filled at the
following bar's open, or is the forced close at the last bar's close. -/
def TradeWF (prices : List PriceBar) (signals : List SignalPoint)
    (commission : ℚ) (t : Trade) : Prop :=
  t.entry_index + 1 < prices.length ∧
  (prices[t.entry_index + 1]?).map PriceBar.open_ = some t.entry_price ∧
  signals[t.entry_index]? = some SignalPoint.entry ∧
  t.entry_index < t.exit_index ∧
  t.pct_return = ((t.exit_price / t.entry_price - 1) - 2 * commission) * 100 ∧
  t.hold_days = t.exit_index - t.entry_index ∧
  ((t.exit_index + 1 < prices.length ∧
      (prices[t.exit_index + 1]?).map PriceBar.open_ = some t.exit_price ∧
      signals[t.exit_index]? = some SignalPoint.exit) ∨
    (t.exit_index = prices.length - 1 ∧
      (prices.getLast?).map PriceBar.close = some t.exit_price))

/-- Well-formedness of the open position while the loop is at bar `bound`:
it was opened by an entry signal on an earlier bar and filled at the bar
after the signal. -/
def PosWF (prices : List PriceBar) (signals : List SignalPoint) (bound : ℕ)
    (p : OpenPosition) : Prop :=
  p.entry_index < bound ∧
  p.entry_index + 1 < prices.length ∧
  (prices[p.entry_index + 1]?).map PriceBar.open_ = some p.entry_price ∧
  signals[p.entry_index]? = some SignalPoint.entry

/-- Rewriting a trade to the returns it would have under a commission rate
higher by `d`: only `pct_return` changes, by `-200 * d` (two legs, in
percentage units). -/
def adjustTrade (d : ℚ) (t : Trade) : Trade :=
  { t with pct_return := t.pct_return - 200 * d }

/-! ### Concrete inputs used by witnesses and counterexamples -/

/-- A flat all-`p` price bar for day `d`. -/
def flatBar (d : ℕ) (p : ℚ) : PriceBar :=
  { date := d, open_ := p, high := p, low := p, close := p }

/-- The §8 scenario price series `[100, 102, 99, 105, 108]` with opens
equal to closes. -/
def scenarioPrices : List PriceBar :=
  [flatBar 0 100, flatBar 1 102, flatBar 2 99, flatBar 3 105, flatBar 4 108]

/-- The §8 scenario signal series `[none, entry, none, exit, none]`. -/
def scenarioSignals : List SignalPoint :=
  [SignalPoint.none, SignalPoint.entry, SignalPoint.none, SignalPoint.exit,
   SignalPoint.none]

/-- A three-bar rising series. -/
def risingPrices : List PriceBar :=
  [flatBar 0 100, flatBar 1 110, flatBar 2 120]

/-- One executed entry signal, no exit signal. -/
def oneEntrySignals : List SignalPoint :=
  [SignalPoint.none, SignalPoint.entry, SignalPoint.none]

/-- Five flat bars at price 100. -/
def flatPrices : List PriceBar :=
  [flatBar 0 100, flatBar 1 100, flatBar 2 100, flatBar 3 100, flatBar 4 100]

/-- Two immediate round trips. -/
def twoTradeSignals : List SignalPoint :=
  [SignalPoint.entry, SignalPoint.exit, SignalPoint.entry, SignalPoint.exit,
   SignalPoint.none]

/-- Two quiet bars: a valid input that produces zero trades. -/
def quietPrices : List PriceBar :=
  [flatBar 0 100, flatBar 1 101]

/-- No signals at all. -/
def quietSignals : List SignalPoint :=
  [SignalPoint.none, SignalPoint.none]

/-- The single trade the §8 scenario produces: entry signal on bar 1 filled
at bar 2's open (99), exit signal on bar 3 filled at bar 4's open (108). -/
def scenarioTrade : Trade :=
  { entry_index := 1, entry_price := 99, exit_index := 3, exit_price := 108,
    pct_return := 489 / 55, hold_days := 2 }

/-- The backtest result of the §8 scenario at commission 0.001. -/
def scenarioResult : BacktestResult :=
  { win_rate_pct := 100, n_trades := 1, total_return_pct := 489 / 55,
    buy_hold_return_pct := 8, sharpe_ratio := 0, max_drawdown_pct := 0,
    avg_hold_days := 2, trades := [scenarioTrade] }

/-- The backtest result of the rising one-entry series at commission
0.001: one forced close. -/
def risingResult : BacktestResult :=
  { win_rate_pct := 0, n_trades := 1, total_return_pct := -(1 / 5),
    buy_hold_return_pct := 20, sharpe_ratio := 0,
    max_drawdown_pct := 1 / 5, avg_hold_days := 1,
    trades := [{ entry_index := 1, entry_price := 120, exit_index := 2,
                 exit_price := 120, pct_return := -(1 / 5),
                 hold_days := 1 }] }

/-- The zero-trade backtest result of the quiet series at commission
0.001. -/
def quietResult : BacktestResult :=
  { win_rate_pct := 0, n_trades := 0, total_return_pct := 0,
    buy_hold_return_pct := 1, sharpe_ratio := 0, max_drawdown_pct := 0,
    avg_hold_days := 0, trades := [] }

/-- The flat two-trade result at commission 0. -/
def flatZeroResult : BacktestResult :=
  { win_rate_pct := 0, n_trades := 2, total_return_pct := 0,
    buy_hold_return_pct := 0, sharpe_ratio := 0, max_drawdown_pct := 0,
    avg_hold_days := 1,
    trades := [{ entry_index := 0, entry_price := 100, exit_index := 1,
                 exit_price := 100, pct_return := 0, hold_days := 1 },
               { entry_index := 2, entry_price := 100, exit_index := 3,
                 exit_price := 100, pct_return := 0, hold_days := 1 }] }

/-- The flat two-trade result at commission 0.001. -/
def flatMilliResult : BacktestResult :=
  { win_rate_pct := 0, n_trades := 2, total_return_pct := -(999 / 2500),
    buy_hold_return_pct := 0, sharpe_ratio := 0,
    max_drawdown_pct := 999 / 2500, avg_hold_days := 1,
    trades := [{ entry_index := 0, entry_price := 100, exit_index := 1,
                 exit_price := 100, pct_return := -(1 / 5), hold_days := 1 },
               { entry_index := 2, entry_price := 100, exit_index := 3,
                 exit_price := 100, pct_return := -(1 / 5),
                 hold_days := 1 }] }

/-! ## Helper lemmas -/

theorem scenario_run :
    run scenarioPrices scenarioSignals (1 / 1000) =
      Except.ok scenarioResult := by
  norm_num [run, mkResult, simulateTrades, loop, step, closeTrade, winRatePct,
    winners, totalReturnPct, growthFactor, buyHoldReturnPct,
    sharpeRatioMetric, meanReturn, maxDrawdownPct, drawdownStep, avgHoldDays,
    datesAscending, scenarioPrices, scenarioSignals, flatBar, scenarioTrade,
    scenarioResult]

theorem rising_run :
    run risingPrices oneEntrySignals (1 / 1000) = Except.ok risingResult := by
  norm_num [run, mkResult, simulateTrades, loop, step, closeTrade, winRatePct,
    winners, totalReturnPct, growthFactor, buyHoldReturnPct,
    sharpeRatioMetric, meanReturn, maxDrawdownPct, drawdownStep, avgHoldDays,
    datesAscending, risingPrices, oneEntrySignals, flatBar, risingResult]

theorem quiet_run :
    run quietPrices quietSignals (1 / 1000) = Except.ok quietResult := by
  norm_num [run, mkResult, simulateTrades, loop, step, closeTrade, winRatePct,
    winners, totalReturnPct, growthFactor, buyHoldReturnPct,
    sharpeRatioMetric, meanReturn, maxDrawdownPct, drawdownStep, avgHoldDays,
    datesAscending, quietPrices, quietSignals, flatBar, quietResult]

theorem flat_zero_run :
    run flatPrices twoTradeSignals 0 = Except.ok flatZeroResult := by
  norm_num [run, mkResult, simulateTrades, loop, step, closeTrade, winRatePct,
    winners, totalReturnPct, growthFactor, buyHoldReturnPct,
    sharpeRatioMetric, meanReturn, maxDrawdownPct, drawdownStep, avgHoldDays,
    datesAscending, flatPrices, twoTradeSignals, flatBar, flatZeroResult]

theorem flat_milli_run :
    run flatPrices twoTradeSignals (1 / 1000) =
      Except.ok flatMilliResult := by
  norm_num [run, mkResult, simulateTrades, loop, step, closeTrade, winRatePct,
    winners, totalReturnPct, growthFactor, buyHoldReturnPct,
    sharpeRatioMetric, meanReturn, maxDrawdownPct, drawdownStep, avgHoldDays,
    datesAscending, flatPrices, twoTradeSignals, flatBar, flatMilliResult]

theorem getD_eq_some {o : Option SignalPoint} {v : SignalPoint}
    (h : o.getD SignalPoint.none = v) (hv : v ≠ SignalPoint.none) :
    o = some v := by
  cases o with
  | none => exact absurd h.symm hv
  | some w => simpa using h

theorem run_ok_iff (prices : List PriceBar) (signals : List SignalPoint)
    (commission : ℚ) (r : BacktestResult) :
    run prices signals commission = Except.ok r ↔
      2 ≤ prices.length ∧ signals.length = prices.length ∧
        datesAscending prices = true ∧
        r = mkResult prices signals commission := by
  unfold run
  split_ifs with h1 h2 h3
  · constructor
    · intro h; exact absurd h (by simp)
    · intro h; omega
  · constructor
    · intro h; exact absurd h (by simp)
    · intro h; exact h2 h.2.1
  · constructor
    · intro h
      exact ⟨by omega, by omega, h3, (Except.ok.inj h).symm⟩
    · intro h
      rw [h.2.2.2]
  · constructor
    · intro h; exact absurd h (by simp)
    · intro h; exact h3 h.2.2.1

theorem step_entry_fill (prices : List PriceBar) (signals : List SignalPoint)
    (commission : ℚ) (i : ℕ) (trades : List Trade) (bar : PriceBar)
    (h1 : (signals[i]?).getD SignalPoint.none = SignalPoint.entry)
    (h2 : prices[i + 1]? = some bar) :
    step prices signals commission i Option.none trades =
      (some { entry_index := i, entry_price := bar.open_ }, trades) := by
  unfold step
  rw [h1, h2]

theorem step_exit_fill (prices : List PriceBar) (signals : List SignalPoint)
    (commission : ℚ) (i : ℕ) (p : OpenPosition) (trades : List Trade)
    (bar : PriceBar)
    (h1 : (signals[i]?).getD SignalPoint.none = SignalPoint.exit)
    (h2 : prices[i + 1]? = some bar) :
    step prices signals commission i (some p) trades =
      (Option.none, trades ++ [closeTrade p i bar.open_ commission]) := by
  unfold step
  rw [h1, h2]

theorem step_skip_flat (prices : List PriceBar) (signals : List SignalPoint)
    (commission : ℚ) (i : ℕ) (trades : List Trade)
    (h1 : (signals[i]?).getD SignalPoint.none ≠ SignalPoint.entry) :
    step prices signals commission i Option.none trades =
      (Option.none, trades) := by
  unfold step
  cases hsig : (signals[i]?).getD SignalPoint.none with
  | entry => exact absurd hsig h1
  | exit => cases prices[i + 1]? <;> rfl
  | none => cases prices[i + 1]? <;> rfl

theorem step_skip_long (prices : List PriceBar) (signals : List SignalPoint)
    (commission : ℚ) (i : ℕ) (p : OpenPosition) (trades : List Trade)
    (h1 : (signals[i]?).getD SignalPoint.none ≠ SignalPoint.exit) :
    step prices signals commission i (some p) trades = (some p, trades) := by
  unfold step
  cases hsig : (signals[i]?).getD SignalPoint.none with
  | exit => exact absurd hsig h1
  | entry => cases prices[i + 1]? <;> rfl
  | none => cases prices[i + 1]? <;> rfl

theorem step_wf (prices : List PriceBar) (signals : List SignalPoint)
    (commission : ℚ) (i : ℕ) (pos : Option OpenPosition)
    (trades : List Trade) (hi : i + 1 < prices.length)
    (hpos : ∀ p, pos = some p → PosWF prices signals i p)
    (htr : ∀ t ∈ trades, TradeWF prices signals commission t) :
    (∀ p, (step prices signals commission i pos trades).1 = some p →
        PosWF prices signals (i + 1) p) ∧
    (∀ t ∈ (step prices signals commission i pos trades).2,
        TradeWF prices signals commission t) := by
  obtain ⟨bar, hbar⟩ : ∃ bar, prices[i + 1]? = some bar :=
    ⟨prices[i + 1], List.getElem?_eq_getElem hi⟩
  cases pos with
  | none =>
    cases hsig : (signals[i]?).getD SignalPoint.none with
    | entry =>
      rw [step_entry_fill prices signals commission i trades bar hsig hbar]
      refine ⟨?_, htr⟩
      intro p hp
      obtain rfl := (Option.some.inj hp).symm
      exact ⟨Nat.lt_succ_self i, hi, by rw [hbar]; rfl,
        getD_eq_some hsig (by simp)⟩
    | exit =>
      rw [step_skip_flat prices signals commission i trades
        (by rw [hsig]; simp)]
      exact ⟨fun p hp => absurd hp (by simp), htr⟩
    | none =>
      rw [step_skip_flat prices signals commission i trades
        (by rw [hsig]; simp)]
      exact ⟨fun p hp => absurd hp (by simp), htr⟩
  | some p =>
    cases hsig : (signals[i]?).getD SignalPoint.none with
    | exit =>
      rw [step_exit_fill prices signals commission i p trades bar hsig hbar]
      refine ⟨fun q hq => absurd hq (by simp), ?_⟩
      intro t ht
      rcases List.mem_append.mp ht with hold | hnew
      · exact htr t hold
      · obtain ⟨hb, hl, hpr, hsp⟩ := hpos p rfl
        have heq : t = closeTrade p i bar.open_ commission := by
          simpa using hnew
        subst heq
        refine ⟨hl, hpr, hsp, hb, rfl, rfl, Or.inl ⟨hi, ?_, ?_⟩⟩
        · show Option.map PriceBar.open_ prices[i + 1]? = some bar.open_
          rw [hbar]; rfl
        · show signals[i]? = some SignalPoint.exit
          exact getD_eq_some hsig (by simp)
    | entry =>
      rw [step_skip_long prices signals commission i p trades
        (by rw [hsig]; simp)]
      refine ⟨?_, htr⟩
      intro q hq
      obtain rfl := (Option.some.inj hq).symm
      obtain ⟨hb, hl, hpr, hsp⟩ := hpos q rfl
      exact ⟨Nat.lt_succ_of_lt hb, hl, hpr, hsp⟩
    | none =>
      rw [step_skip_long prices signals commission i p trades
        (by rw [hsig]; simp)]
      refine ⟨?_, htr⟩
      intro q hq
      obtain rfl := (Option.some.inj hq).symm
      obtain ⟨hb, hl, hpr, hsp⟩ := hpos q rfl
      exact ⟨Nat.lt_succ_of_lt hb, hl, hpr, hsp⟩

theorem loop_wf (prices : List PriceBar) (signals : List SignalPoint)
    (commission : ℚ) :
    ∀ (fuel i : ℕ) (pos : Option OpenPosition) (trades : List Trade),
      i + fuel + 1 = prices.length →
      (∀ p, pos = some p → PosWF prices signals i p) →
      (∀ t ∈ trades, TradeWF prices signals commission t) →
      (∀ p, (loop prices signals commission fuel i pos trades).1 = some p →
          PosWF prices signals (prices.length - 1) p) ∧
      (∀ t ∈ (loop prices signals commission fuel i pos trades).2,
          TradeWF prices signals commission t) := by
  intro fuel
  induction fuel with
  | zero =>
    intro i pos trades hlen hpos htr
    have hi : i = prices.length - 1 := by omega
    subst hi
    exact ⟨fun p hp => hpos p hp, htr⟩
  | succ n ih =>
    intro i pos trades hlen hpos htr
    have hi : i + 1 < prices.length := by omega
    obtain ⟨h1, h2⟩ := step_wf prices signals commission i pos trades hi
      hpos htr
    have := ih (i + 1) (step prices signals commission i pos trades).1
      (step prices signals commission i pos trades).2 (by omega) h1 h2
    simpa [loop] using this

theorem simulateTrades_wf (prices : List PriceBar)
    (signals : List SignalPoint) (commission : ℚ)
    (hlen : 2 ≤ prices.length) :
    ∀ t ∈ simulateTrades prices signals commission,
      TradeWF prices signals commission t := by
  have h0 : 0 + (prices.length - 1) + 1 = prices.length := by omega
  obtain ⟨h1, h2⟩ := loop_wf prices signals commission (prices.length - 1) 0
    Option.none [] h0 (fun p hp => by cases hp) (fun t ht => by cases ht)
  intro t ht
  unfold simulateTrades at ht
  rcases hres : loop prices signals commission (prices.length - 1) 0
      Option.none [] with ⟨pos, trades⟩
  rw [hres] at ht h1 h2
  cases pos with
  | none => exact h2 t ht
  | some p =>
    cases hlast : prices.getLast? with
    | none =>
      rw [List.getLast?_eq_none_iff] at hlast
      rw [hlast] at hlen
      simp at hlen
    | some lastBar =>
      rw [hlast] at ht
      rcases List.mem_append.mp ht with hold | hnew
      · exact h2 t hold
      · obtain ⟨hb, hl, hpr, hsp⟩ := h1 p rfl
        have heq : t = closeTrade p (prices.length - 1) lastBar.close
            commission := by simpa using hnew
        subst heq
        refine ⟨hl, hpr, hsp, hb, rfl, rfl, Or.inr ⟨rfl, ?_⟩⟩
        show Option.map PriceBar.close prices.getLast? = some lastBar.close
        rw [hlast]
        rfl

theorem run_trades_wf (prices : List PriceBar) (signals : List SignalPoint)
    (commission : ℚ) (r : BacktestResult)
    (h : run prices signals commission = Except.ok r) :
    2 ≤ prices.length ∧ r = mkResult prices signals commission ∧
      ∀ t ∈ r.trades, TradeWF prices signals commission t := by
  obtain ⟨hlen, _, _, hr⟩ := (run_ok_iff prices signals commission r).mp h
  refine ⟨hlen, hr, ?_⟩
  rw [hr]
  exact simulateTrades_wf prices signals commission hlen

/-! ## Claims -/

/-- C1: for every price series and aligned signal series, an entry signal
on bar `i` taken while flat is filled at bar `i + 1`'s open, never at bar
`i`'s close; a signal on the last bar is discarded, so no produced trade
has `entry_index = len(prices) - 1`. -/
theorem C1_entry_fills_at_next_open :
    ∀ (prices : List PriceBar) (signals : List SignalPoint) (commission : ℚ)
      (r : BacktestResult), run prices signals commission = Except.ok r →
      ∀ t ∈ r.trades,
        signals[t.entry_index]? = some SignalPoint.entry ∧
        t.entry_index + 1 < prices.length ∧
        (prices[t.entry_index + 1]?).map PriceBar.open_ = some t.entry_price ∧
        t.entry_index ≠ prices.length - 1 := by
  intro prices signals commission r h t ht
  obtain ⟨hlen, hr, hwf⟩ := run_trades_wf prices signals commission r h
  obtain ⟨h1, h2, h3, _⟩ := hwf t ht
  exact ⟨h3, h1, h2, by omega⟩

/-- Witness for C1 on the §8 scenario: the single produced trade enters on
the signal bar 1, filled at bar 2's open (99), and its entry index is not
the last bar. -/
theorem C1_entry_fills_at_next_open_witness :
    run scenarioPrices scenarioSignals (1 / 1000) =
        Except.ok scenarioResult ∧
    scenarioTrade ∈ scenarioResult.trades ∧
    (scenarioSignals[scenarioTrade.entry_index]? = some SignalPoint.entry ∧
      scenarioTrade.entry_index + 1 < scenarioPrices.length ∧
      (scenarioPrices[scenarioTrade.entry_index + 1]?).map PriceBar.open_ =
        some scenarioTrade.entry_price ∧
      scenarioTrade.entry_index ≠ scenarioPrices.length - 1) :=
  ⟨scenario_run, List.mem_singleton_self scenarioTrade,
    C1_entry_fills_at_next_open scenarioPrices scenarioSignals (1 / 1000)
      scenarioResult scenario_run scenarioTrade
      (List.mem_singleton_self scenarioTrade)⟩

theorem loop_long_of_no_exit (prices : List PriceBar)
    (signals : List SignalPoint) (commission : ℚ)
    (hne : ∀ j : ℕ, (signals[j]?).getD SignalPoint.none ≠ SignalPoint.exit) :
    ∀ (fuel i : ℕ) (p : OpenPosition) (trades : List Trade),
      loop prices signals commission fuel i (some p) trades =
        (some p, trades) := by
  intro fuel
  induction fuel with
  | zero => intro i p trades; rfl
  | succ n ih =>
    intro i p trades
    show loop prices signals commission n (i + 1)
        (step prices signals commission i (some p) trades).1
        (step prices signals commission i (some p) trades).2 =
      (some p, trades)
    rw [step_skip_long prices signals commission i p trades (hne i)]
    exact ih (i + 1) p trades

theorem loop_flat_opens (prices : List PriceBar)
    (signals : List SignalPoint) (commission : ℚ)
    (hne : ∀ j : ℕ, (signals[j]?).getD SignalPoint.none ≠ SignalPoint.exit) :
    ∀ (fuel i : ℕ) (trades : List Trade),
      i + fuel + 1 ≤ prices.length →
      (∃ j, i ≤ j ∧ j < i + fuel ∧
          (signals[j]?).getD SignalPoint.none = SignalPoint.entry) →
      ∃ q, loop prices signals commission fuel i Option.none trades =
        (some q, trades) := by
  intro fuel
  induction fuel with
  | zero =>
    intro i trades _ hex
    obtain ⟨j, h1, h2, _⟩ := hex
    omega
  | succ n ih =>
    intro i trades hb hex
    cases hsig : (signals[i]?).getD SignalPoint.none with
    | entry =>
      have hi : i + 1 < prices.length := by omega
      obtain ⟨bar, hbar⟩ : ∃ bar, prices[i + 1]? = some bar :=
        ⟨prices[i + 1], List.getElem?_eq_getElem hi⟩
      refine ⟨{ entry_index := i, entry_price := bar.open_ }, ?_⟩
      show loop prices signals commission n (i + 1)
          (step prices signals commission i Option.none trades).1
          (step prices signals commission i Option.none trades).2 =
        (some { entry_index := i, entry_price := bar.open_ }, trades)
      rw [step_entry_fill prices signals commission i trades bar hsig hbar]
      exact loop_long_of_no_exit prices signals commission hne n (i + 1)
        { entry_index := i, entry_price := bar.open_ } trades
    | exit => exact absurd hsig (hne i)
    | none =>
      have hred : ∀ q trades2,
          (loop prices signals commission n (i + 1)
            (step prices signals commission i Option.none trades).1
            (step prices signals commission i Option.none trades).2 =
              (some q, trades2)) →
          loop prices signals commission (n + 1) i Option.none trades =
            (some q, trades2) := fun q trades2 hq => hq
      obtain ⟨j, h1, h2, h3⟩ := hex
      have hij : i < j := by
        rcases Nat.eq_or_lt_of_le h1 with rfl | h
        · rw [hsig] at h3
          exact absurd h3 (by simp)
        · exact h
      obtain ⟨q, hq⟩ := ih (i + 1) trades (by omega)
        ⟨j, by omega, by omega, h3⟩
      refine ⟨q, hred q trades ?_⟩
      rw [step_skip_flat prices signals commission i trades
        (by rw [hsig]; simp)]
      exact hq

/-- C2: while long, an exit signal on bar `j` fills at bar `j + 1`'s open;
a position still open at series end — in particular when the exit signal
would need a bar past the end — is force-closed at the last bar's close,
and a series with one executed unmatched entry and no exit signal yields
exactly one trade, never zero. -/
theorem C2_exit_fill_and_forced_close :
    (∀ (prices : List PriceBar) (signals : List SignalPoint)
        (commission : ℚ) (r : BacktestResult),
        run prices signals commission = Except.ok r →
        ∀ t ∈ r.trades,
          (t.exit_index + 1 < prices.length ∧
            (prices[t.exit_index + 1]?).map PriceBar.open_ =
              some t.exit_price ∧
            signals[t.exit_index]? = some SignalPoint.exit) ∨
          (t.exit_index = prices.length - 1 ∧
            (prices.getLast?).map PriceBar.close = some t.exit_price)) ∧
    (∀ (prices : List PriceBar) (signals : List SignalPoint)
        (commission : ℚ) (r : BacktestResult),
        run prices signals commission = Except.ok r →
        (∀ j, j < signals.length → signals[j]? ≠ some SignalPoint.exit) →
        (∃ j, j < prices.length - 1 ∧
            signals[j]? = some SignalPoint.entry) →
        r.n_trades = 1) := by
  constructor
  · intro prices signals commission r h t ht
    obtain ⟨_, _, hwf⟩ := run_trades_wf prices signals commission r h
    exact (hwf t ht).2.2.2.2.2.2
  · intro prices signals commission r h hnoexit hentry
    obtain ⟨hlen, _, _, hr⟩ :=
      (run_ok_iff prices signals commission r).mp h
    have hne : ∀ j : ℕ,
        (signals[j]?).getD SignalPoint.none ≠ SignalPoint.exit := by
      intro j hcon
      have hsome := getD_eq_some hcon (by simp)
      by_cases hj : j < signals.length
      · exact hnoexit j hj hsome
      · rw [List.getElem?_eq_none (by omega)] at hsome
        cases hsome
    obtain ⟨j, hj1, hj2⟩ := hentry
    obtain ⟨q, hq⟩ := loop_flat_opens prices signals commission hne
      (prices.length - 1) 0 [] (by omega)
      ⟨j, by omega, by omega, by rw [hj2]; rfl⟩
    rw [hr]
    show (simulateTrades prices signals commission).length = 1
    unfold simulateTrades
    rw [hq]
    cases hlast : prices.getLast? with
    | none =>
      rw [List.getLast?_eq_none_iff] at hlast
      rw [hlast] at hlen
      simp at hlen
    | some lastBar => rfl

/-- Witness for C2: the rising three-bar series with one executed entry and
no exit signal produces exactly one (force-closed) trade. -/
theorem C2_exit_fill_and_forced_close_witness :
    run risingPrices oneEntrySignals (1 / 1000) = Except.ok risingResult ∧
    risingResult.n_trades = 1 :=
  ⟨rising_run,
    C2_exit_fill_and_forced_close.2 risingPrices oneEntrySignals (1 / 1000)
      risingResult rising_run (by decide) ⟨1, by decide, by decide⟩⟩

/-- C3: the aggregator verdict label is determined exactly by the composite
score — BUY iff above 0.15, SELL iff below -0.15, HOLD otherwise; composite
+1 (all bullish) yields BUY, -1 yields SELL, 0 yields HOLD, and the
sell/neutral/bullish scenario under default weights gives composite -0.05
and verdict HOLD. -/
theorem C3_verdict_from_composite :
    (∀ s : ℚ,
      (verdictLabel s = VerdictLabel.BUY ↔ 15 / 100 < s) ∧
      (verdictLabel s = VerdictLabel.SELL ↔ s < -(15 / 100)) ∧
      (verdictLabel s = VerdictLabel.HOLD ↔
        -(15 / 100) ≤ s ∧ s ≤ 15 / 100)) ∧
    (∀ (t f v : CategoryScore) (w : Weights),
      w.technical + w.fundamental + w.valuation = 1 →
      aggregate t f v w = Except.ok
        { composite_score := compositeScore t f v w,
          label := verdictLabel (compositeScore t f v w),
          confidence_pct := confidencePct (compositeScore t f v w) }) ∧
    ((aggregate { signal := CategorySignal.bullish, numeric_score := Option.none }
        { signal := CategorySignal.bullish, numeric_score := Option.none }
        { signal := CategorySignal.bullish, numeric_score := Option.none }
        defaultWeights).map (fun x => (x.composite_score, x.label)) =
      Except.ok ((1 : ℚ), VerdictLabel.BUY)) ∧
    ((aggregate { signal := CategorySignal.bearish, numeric_score := Option.none }
        { signal := CategorySignal.bearish, numeric_score := Option.none }
        { signal := CategorySignal.bearish, numeric_score := Option.none }
        defaultWeights).map (fun x => (x.composite_score, x.label)) =
      Except.ok ((-1 : ℚ), VerdictLabel.SELL)) ∧
    ((aggregate { signal := CategorySignal.neutral, numeric_score := Option.none }
        { signal := CategorySignal.neutral, numeric_score := Option.none }
        { signal := CategorySignal.neutral, numeric_score := Option.none }
        defaultWeights).map (fun x => (x.composite_score, x.label)) =
      Except.ok ((0 : ℚ), VerdictLabel.HOLD)) ∧
    ((aggregate { signal := CategorySignal.sell, numeric_score := Option.none }
        { signal := CategorySignal.neutral, numeric_score := Option.none }
        { signal := CategorySignal.bullish, numeric_score := Option.none }
        defaultWeights).map (fun x => (x.composite_score, x.label)) =
      Except.ok ((-(1 / 20) : ℚ), VerdictLabel.HOLD)) := by
  refine ⟨?_, ?_, ?_, ?_, ?_, ?_⟩
  · intro s
    unfold verdictLabel
    split_ifs with h1 h2
    · refine ⟨⟨fun _ => h1, fun _ => rfl⟩,
        ⟨fun hc => by simp at hc, fun hlt => ((by linarith : False)).elim⟩,
        ⟨fun hc => by simp at hc,
          fun hc => ((by linarith [hc.2] : False)).elim⟩⟩
    · refine ⟨⟨fun hc => by simp at hc,
          fun hgt => ((by linarith : False)).elim⟩,
        ⟨fun _ => h2, fun _ => rfl⟩,
        ⟨fun hc => by simp at hc,
          fun hc => ((by linarith [hc.1] : False)).elim⟩⟩
    · refine ⟨⟨fun hc => by simp at hc,
          fun hgt => ((by linarith : False)).elim⟩,
        ⟨fun hc => by simp at hc,
          fun hlt => ((by linarith : False)).elim⟩,
        ⟨fun _ => ⟨by linarith, by linarith⟩, fun _ => rfl⟩⟩
  · intro t f v w hw
    unfold aggregate
    rw [if_neg (by rw [hw]; exact fun hne => hne rfl)]
  · norm_num [aggregate, compositeScore, effectiveScore, signalScore,
      defaultWeights, verdictLabel, Except.map]
  · norm_num [aggregate, compositeScore, effectiveScore, signalScore,
      defaultWeights, verdictLabel, Except.map]
  · norm_num [aggregate, compositeScore, effectiveScore, signalScore,
      defaultWeights, verdictLabel, Except.map]
  · norm_num [aggregate, compositeScore, effectiveScore, signalScore,
      defaultWeights, verdictLabel, Except.map]

/-- Witness for C3: the sell/neutral/bullish scenario under the default
weights, with the weight-sum hypothesis discharged concretely. -/
theorem C3_verdict_from_composite_witness :
    aggregate { signal := CategorySignal.sell, numeric_score := Option.none }
        { signal := CategorySignal.neutral, numeric_score := Option.none }
        { signal := CategorySignal.bullish, numeric_score := Option.none }
        defaultWeights =
      Except.ok
        { composite_score :=
            compositeScore
              { signal := CategorySignal.sell, numeric_score := Option.none }
              { signal := CategorySignal.neutral,
                numeric_score := Option.none }
              { signal := CategorySignal.bullish,
                numeric_score := Option.none } defaultWeights,
          label :=
            verdictLabel
              (compositeScore
                { signal := CategorySignal.sell,
                  numeric_score := Option.none }
                { signal := CategorySignal.neutral,
                  numeric_score := Option.none }
                { signal := CategorySignal.bullish,
                  numeric_score := Option.none } defaultWeights),
          confidence_pct :=
            confidencePct
              (compositeScore
                { signal := CategorySignal.sell,
                  numeric_score := Option.none }
                { signal := CategorySignal.neutral,
                  numeric_score := Option.none }
                { signal := CategorySignal.bullish,
                  numeric_score := Option.none } defaultWeights) } :=
  C3_verdict_from_composite.2.1
    { signal := CategorySignal.sell, numeric_score := Option.none }
    { signal := CategorySignal.neutral, numeric_score := Option.none }
    { signal := CategorySignal.bullish, numeric_score := Option.none }
    defaultWeights (by norm_num [defaultWeights])

/-- C5: the default weights are technical 0.35, fundamental 0.35,
valuation 0.30, summing to 1, and every weight map whose components do not
sum to 1 makes aggregate raise ConfigurationError. -/
theorem C5_weight_validation :
    defaultWeights.technical = 35 / 100 ∧
    defaultWeights.fundamental = 35 / 100 ∧
    defaultWeights.valuation = 30 / 100 ∧
    defaultWeights.technical + defaultWeights.fundamental +
        defaultWeights.valuation = 1 ∧
    (∀ (t f v : CategoryScore) (w : Weights),
        w.technical + w.fundamental + w.valuation ≠ 1 →
        aggregate t f v w =
          Except.error AggregatorError.configuration) := by
  refine ⟨rfl, rfl, rfl, by norm_num [defaultWeights], ?_⟩
  intro t f v w hw
  unfold aggregate
  rw [if_pos hw]

/-- Witness for C5: weight sums 0.99 and 1.01 both raise
ConfigurationError. -/
theorem C5_weight_validation_witness :
    aggregate { signal := CategorySignal.hold, numeric_score := Option.none }
        { signal := CategorySignal.hold, numeric_score := Option.none }
        { signal := CategorySignal.hold, numeric_score := Option.none }
        { technical := 35 / 100, fundamental := 35 / 100,
          valuation := 29 / 100 } =
      Except.error AggregatorError.configuration ∧
    aggregate { signal := CategorySignal.hold, numeric_score := Option.none }
        { signal := CategorySignal.hold, numeric_score := Option.none }
        { signal := CategorySignal.hold, numeric_score := Option.none }
        { technical := 35 / 100, fundamental := 35 / 100,
          valuation := 31 / 100 } =
      Except.error AggregatorError.configuration :=
  ⟨C5_weight_validation.2.2.2.2 _ _ _ _ (by norm_num),
    C5_weight_validation.2.2.2.2 _ _ _ _ (by norm_num)⟩

/-- C4: run raises InsufficientDataError exactly when fewer than two bars
are supplied; a valid zero-trade input does not raise but returns a result
with `n_trades = 0` and the trade-derived metrics at their zero sentinels
(the divisions by `n_trades` are guarded, never performed). -/
theorem C4_insufficient_data_and_zero_trades :
    (∀ (prices : List PriceBar) (signals : List SignalPoint)
        (commission : ℚ),
      run prices signals commission =
          Except.error BacktestError.insufficientData ↔
        prices.length < 2) ∧
    (∀ (prices : List PriceBar) (signals : List SignalPoint)
        (commission : ℚ) (r : BacktestResult),
      run prices signals commission = Except.ok r → r.trades = [] →
        r.n_trades = 0 ∧ r.win_rate_pct = 0 ∧ r.total_return_pct = 0 ∧
          r.sharpe_ratio = 0 ∧ r.max_drawdown_pct = 0 ∧
          r.avg_hold_days = 0) := by
  constructor
  · intro prices signals commission
    unfold run
    split_ifs with h1 h2 h3
    · exact iff_of_true rfl h1
    · exact iff_of_false (fun hc => by simp at hc) h1
    · exact iff_of_false (fun hc => by simp at hc) h1
    · exact iff_of_false (fun hc => by simp at hc) h1
  · intro prices signals commission r h htr
    obtain ⟨_, _, _, hr⟩ := (run_ok_iff prices signals commission r).mp h
    have htrades : simulateTrades prices signals commission = [] := by
      rw [hr] at htr
      exact htr
    subst hr
    show (simulateTrades prices signals commission).length = 0 ∧
      winRatePct (simulateTrades prices signals commission) = 0 ∧
      totalReturnPct (simulateTrades prices signals commission) = 0 ∧
      sharpeRatioMetric (simulateTrades prices signals commission) = 0 ∧
      maxDrawdownPct (simulateTrades prices signals commission) = 0 ∧
      avgHoldDays (simulateTrades prices signals commission) = 0
    rw [htrades]
    refine ⟨rfl, rfl, ?_, rfl, rfl, rfl⟩
    norm_num [totalReturnPct]

/-- Witness for C4: a single bar raises InsufficientDataError, and the
quiet two-bar series returns a zero-trade result with zero sentinels. -/
theorem C4_insufficient_data_and_zero_trades_witness :
    run [flatBar 0 100] [SignalPoint.none] (1 / 1000) =
        Except.error BacktestError.insufficientData ∧
    run quietPrices quietSignals (1 / 1000) = Except.ok quietResult ∧
    (quietResult.n_trades = 0 ∧ quietResult.win_rate_pct = 0 ∧
      quietResult.total_return_pct = 0 ∧ quietResult.sharpe_ratio = 0 ∧
      quietResult.max_drawdown_pct = 0 ∧ quietResult.avg_hold_days = 0) :=
  ⟨(C4_insufficient_data_and_zero_trades.1 [flatBar 0 100]
      [SignalPoint.none] (1 / 1000)).mpr (by decide),
    quiet_run,
    C4_insufficient_data_and_zero_trades.2 quietPrices quietSignals
      (1 / 1000) quietResult quiet_run rfl⟩

theorem winRatePct_spec (trades : List Trade) (hne : trades ≠ []) :
    winRatePct trades =
        100 * (winners trades : ℚ) / (trades.length : ℚ) ∧
      0 ≤ winRatePct trades ∧ winRatePct trades ≤ 100 ∧
      (winRatePct trades = 100 ↔ ∀ t ∈ trades, 0 < t.pct_return) := by
  have hlen : 0 < trades.length := List.length_pos.mpr hne
  have hlenQ : (0 : ℚ) < (trades.length : ℚ) := by exact_mod_cast hlen
  have hwle : winners trades ≤ trades.length := List.length_filter_le _ _
  have hwleQ : (winners trades : ℚ) ≤ (trades.length : ℚ) := by
    exact_mod_cast hwle
  have heq : winRatePct trades =
      100 * (winners trades : ℚ) / (trades.length : ℚ) := by
    unfold winRatePct
    rw [if_neg (by simp [hne])]
  refine ⟨heq, ?_, ?_, ?_⟩
  · rw [heq]
    positivity
  · rw [heq, div_le_iff₀ hlenQ]
    linarith
  · rw [heq, div_eq_iff (ne_of_gt hlenQ)]
    constructor
    · intro hw
      have hcast : (winners trades : ℚ) = (trades.length : ℚ) := by
        linarith
      have hwn : winners trades = trades.length := by exact_mod_cast hcast
      have hall := List.filter_length_eq_length.mp hwn
      intro t ht
      simpa using hall t ht
    · intro hall
      have hwn : winners trades = trades.length := by
        apply List.filter_length_eq_length.mpr
        intro t ht
        simpa using hall t ht
      rw [hwn]

/-- C6: for every result produced by run, `n_trades` counts the trade list,
`win_rate_pct` is 100 times the winning-trade count over `n_trades`, lies
in [0, 100], equals 100 exactly when every recorded trade has a positive
return, and is the zero sentinel when there are no trades. -/
theorem C6_win_rate_bounds :
    ∀ (prices : List PriceBar) (signals : List SignalPoint)
      (commission : ℚ) (r : BacktestResult),
      run prices signals commission = Except.ok r →
      r.n_trades = r.trades.length ∧
      0 ≤ r.win_rate_pct ∧ r.win_rate_pct ≤ 100 ∧
      (r.trades = [] → r.win_rate_pct = 0) ∧
      (r.trades ≠ [] →
        r.win_rate_pct =
            100 * (winners r.trades : ℚ) / (r.trades.length : ℚ) ∧
          (r.win_rate_pct = 100 ↔ ∀ t ∈ r.trades, 0 < t.pct_return)) := by
  intro prices signals commission r h
  obtain ⟨_, _, _, hr⟩ := (run_ok_iff prices signals commission r).mp h
  subst hr
  show (simulateTrades prices signals commission).length =
        (simulateTrades prices signals commission).length ∧
      0 ≤ winRatePct (simulateTrades prices signals commission) ∧
      winRatePct (simulateTrades prices signals commission) ≤ 100 ∧
      (simulateTrades prices signals commission = [] →
        winRatePct (simulateTrades prices signals commission) = 0) ∧
      (simulateTrades prices signals commission ≠ [] →
        winRatePct (simulateTrades prices signals commission) =
            100 * (winners (simulateTrades prices signals commission) : ℚ) /
              ((simulateTrades prices signals commission).length : ℚ) ∧
          (winRatePct (simulateTrades prices signals commission) = 100 ↔
            ∀ t ∈ simulateTrades prices signals commission,
              0 < t.pct_return))
  by_cases hT : simulateTrades prices signals commission = []
  · rw [hT]
    refine ⟨rfl, le_refl 0, by norm_num [winRatePct], fun _ => rfl,
      fun hc => absurd rfl hc⟩
  · obtain ⟨h1, h2, h3, h4⟩ :=
      winRatePct_spec (simulateTrades prices signals commission) hT
    exact ⟨rfl, h2, h3, fun hc => absurd hc hT, fun _ => ⟨h1, h4⟩⟩

/-- Witness for C6 on the §8 scenario result: win rate 100, within bounds,
and the 100-iff characterization holds with its single winning trade. -/
theorem C6_win_rate_bounds_witness :
    run scenarioPrices scenarioSignals (1 / 1000) =
        Except.ok scenarioResult ∧
    0 ≤ scenarioResult.win_rate_pct ∧
    scenarioResult.win_rate_pct ≤ 100 ∧
    (scenarioResult.win_rate_pct = 100 ↔
      ∀ t ∈ scenarioResult.trades, 0 < t.pct_return) :=
  ⟨scenario_run,
    (C6_win_rate_bounds scenarioPrices scenarioSignals (1 / 1000)
      scenarioResult scenario_run).2.1,
    (C6_win_rate_bounds scenarioPrices scenarioSignals (1 / 1000)
      scenarioResult scenario_run).2.2.1,
    ((C6_win_rate_bounds scenarioPrices scenarioSignals (1 / 1000)
      scenarioResult scenario_run).2.2.2.2
        (by simp [scenarioResult])).2⟩

theorem closeTrade_adjust (p : OpenPosition) (i : ℕ) (price c1 c2 : ℚ) :
    closeTrade p i price c2 =
      adjustTrade (c2 - c1) (closeTrade p i price c1) := by
  simp only [closeTrade, adjustTrade]
  congr 1
  ring

theorem step_entry_oob (prices : List PriceBar) (signals : List SignalPoint)
    (commission : ℚ) (i : ℕ) (trades : List Trade)
    (h1 : (signals[i]?).getD SignalPoint.none = SignalPoint.entry)
    (h2 : prices[i + 1]? = Option.none) :
    step prices signals commission i Option.none trades =
      (Option.none, trades) := by
  unfold step
  rw [h1, h2]

theorem step_exit_oob (prices : List PriceBar) (signals : List SignalPoint)
    (commission : ℚ) (i : ℕ) (p : OpenPosition) (trades : List Trade)
    (h1 : (signals[i]?).getD SignalPoint.none = SignalPoint.exit)
    (h2 : prices[i + 1]? = Option.none) :
    step prices signals commission i (some p) trades = (some p, trades) := by
  unfold step
  rw [h1, h2]

theorem step_adjust (prices : List PriceBar) (signals : List SignalPoint)
    (c1 c2 : ℚ) (i : ℕ) (pos : Option OpenPosition) (trades : List Trade) :
    step prices signals c2 i pos (trades.map (adjustTrade (c2 - c1))) =
      ((step prices signals c1 i pos trades).1,
        (step prices signals c1 i pos trades).2.map
          (adjustTrade (c2 - c1))) := by
  cases pos with
  | none =>
    cases hsig : (signals[i]?).getD SignalPoint.none with
    | entry =>
      cases hbar : prices[i + 1]? with
      | none =>
        rw [step_entry_oob prices signals c2 i _ hsig hbar,
          step_entry_oob prices signals c1 i trades hsig hbar]
      | some bar =>
        rw [step_entry_fill prices signals c2 i _ bar hsig hbar,
          step_entry_fill prices signals c1 i trades bar hsig hbar]
    | exit =>
      rw [step_skip_flat prices signals c2 i _ (by rw [hsig]; simp),
        step_skip_flat prices signals c1 i trades (by rw [hsig]; simp)]
    | none =>
      rw [step_skip_flat prices signals c2 i _ (by rw [hsig]; simp),
        step_skip_flat prices signals c1 i trades (by rw [hsig]; simp)]
  | some p =>
    cases hsig : (signals[i]?).getD SignalPoint.none with
    | exit =>
      cases hbar : prices[i + 1]? with
      | none =>
        rw [step_exit_oob prices signals c2 i p _ hsig hbar,
          step_exit_oob prices signals c1 i p trades hsig hbar]
      | some bar =>
        rw [step_exit_fill prices signals c2 i p _ bar hsig hbar,
          step_exit_fill prices signals c1 i p trades bar hsig hbar]
        simp [closeTrade_adjust p i bar.open_ c1 c2]
    | entry =>
      rw [step_skip_long prices signals c2 i p _ (by rw [hsig]; simp),
        step_skip_long prices signals c1 i p trades (by rw [hsig]; simp)]
    | none =>
      rw [step_skip_long prices signals c2 i p _ (by rw [hsig]; simp),
        step_skip_long prices signals c1 i p trades (by rw [hsig]; simp)]

theorem loop_adjust (prices : List PriceBar) (signals : List SignalPoint)
    (c1 c2 : ℚ) :
    ∀ (fuel i : ℕ) (pos : Option OpenPosition) (trades : List Trade),
      loop prices signals c2 fuel i pos
          (trades.map (adjustTrade (c2 - c1))) =
        ((loop prices signals c1 fuel i pos trades).1,
          (loop prices signals c1 fuel i pos trades).2.map
            (adjustTrade (c2 - c1))) := by
  intro fuel
  induction fuel with
  | zero => intro i pos trades; rfl
  | succ n ih =>
    intro i pos trades
    show loop prices signals c2 n (i + 1)
        (step prices signals c2 i pos
          (trades.map (adjustTrade (c2 - c1)))).1
        (step prices signals c2 i pos
          (trades.map (adjustTrade (c2 - c1)))).2 = _
    rw [step_adjust prices signals c1 c2 i pos trades]
    exact ih (i + 1) (step prices signals c1 i pos trades).1
      (step prices signals c1 i pos trades).2

theorem simulateTrades_adjust (prices : List PriceBar)
    (signals : List SignalPoint) (c1 c2 : ℚ) :
    simulateTrades prices signals c2 =
      (simulateTrades prices signals c1).map (adjustTrade (c2 - c1)) := by
  unfold simulateTrades
  have h := loop_adjust prices signals c1 c2 (prices.length - 1) 0
    Option.none []
  rw [List.map_nil] at h
  rw [h]
  rcases hres : loop prices signals c1 (prices.length - 1) 0 Option.none []
    with ⟨pos, trades⟩
  cases pos with
  | none => cases prices.getLast? <;> rfl
  | some p =>
    cases prices.getLast? with
    | none => rfl
    | some lastBar =>
      simp [closeTrade_adjust p (prices.length - 1) lastBar.close c1 c2]

theorem growthFactor_adjust (d : ℚ) (t : Trade) :
    growthFactor (adjustTrade d t) = growthFactor t - 2 * d := by
  simp only [growthFactor, adjustTrade]
  ring

theorem prod_map_sub_lt (d : ℚ) (hd : 0 < d) :
    ∀ l : List ℚ, l ≠ [] → (∀ x ∈ l, 0 ≤ x - d) →
      (l.map (fun x => x - d)).prod < l.prod := by
  intro l
  induction l with
  | nil => intro h _; exact absurd rfl h
  | cons x xs ih =>
    intro _ hnn
    have hx : 0 ≤ x - d := hnn x (List.mem_cons_self x xs)
    rcases eq_or_ne xs [] with rfl | hxs
    · simp only [List.map_cons, List.map_nil, List.prod_cons,
        List.prod_nil, mul_one]
      linarith
    · have hxs' : ∀ y ∈ xs, 0 ≤ y - d := fun y hy =>
        hnn y (List.mem_cons_of_mem x hy)
      have h1 : (xs.map (fun y => y - d)).prod < xs.prod := ih hxs hxs'
      have h2 : 0 < xs.prod := List.prod_pos (fun y hy => by
        have := hxs' y hy
        linarith)
      simp only [List.map_cons, List.prod_cons]
      calc (x - d) * (xs.map (fun y => y - d)).prod
          ≤ (x - d) * xs.prod := by
            apply mul_le_mul_of_nonneg_left h1.le hx
        _ < x * xs.prod := by
            exact mul_lt_mul_of_pos_right (by linarith) h2

/-- C7 counterexample: on the flat five-bar series with two immediate
round trips, raising the commission from 0.5 to 1.0 per side raises
`total_return_pct` from -100 to 0 — the claimed strict decrease fails for
commissions large enough to wipe out more than an entire trade. -/
theorem C7_commission_monotonicity_counterexample :
    ((run flatPrices twoTradeSignals (1 / 2)).map
        (fun r => (r.n_trades, r.total_return_pct)) =
      Except.ok (2, -100)) ∧
    ((run flatPrices twoTradeSignals 1).map
        (fun r => (r.n_trades, r.total_return_pct)) =
      Except.ok (2, 0)) ∧
    ((1 : ℚ) / 2 < 1) ∧ ¬((0 : ℚ) < -100) := by
  refine ⟨?_, ?_, by norm_num, by norm_num⟩
  · norm_num [run, mkResult, simulateTrades, loop, step, closeTrade,
      winRatePct, winners, totalReturnPct, growthFactor, buyHoldReturnPct,
      sharpeRatioMetric, meanReturn, maxDrawdownPct, drawdownStep,
      avgHoldDays, datesAscending, flatPrices, twoTradeSignals, flatBar,
      Except.map]
  · norm_num [run, mkResult, simulateTrades, loop, step, closeTrade,
      winRatePct, winners, totalReturnPct, growthFactor, buyHoldReturnPct,
      sharpeRatioMetric, meanReturn, maxDrawdownPct, drawdownStep,
      avgHoldDays, datesAscending, flatPrices, twoTradeSignals, flatBar,
      Except.map]

/-- C7 (amended): each trade return carries both commission legs per the
stated formula, zero-trade results are unchanged by the commission rate,
and raising the commission strictly decreases `total_return_pct` whenever
at least one trade exists and the higher commission leaves every trade's
equity growth factor `1 + pct_return / 100` nonnegative (without that
bound, two wiped-out trades multiply to a gain, see the
counterexample). -/
theorem C7_commission_monotonicity_amended :
    ∀ (prices : List PriceBar) (signals : List SignalPoint) (c1 c2 : ℚ)
      (r1 r2 : BacktestResult),
      run prices signals c1 = Except.ok r1 →
      run prices signals c2 = Except.ok r2 →
      c1 < c2 →
      (∀ t ∈ r1.trades,
        t.pct_return =
          ((t.exit_price / t.entry_price - 1) - 2 * c1) * 100) ∧
      (r1.trades = [] →
        r2.trades = [] ∧ r2.total_return_pct = r1.total_return_pct) ∧
      (r1.trades ≠ [] →
        (∀ t ∈ r2.trades, 0 ≤ 1 + t.pct_return / 100) →
        r2.total_return_pct < r1.total_return_pct) := by
  intro prices signals c1 c2 r1 r2 h1 h2 hc
  obtain ⟨hlen, _, _, hr1⟩ := (run_ok_iff prices signals c1 r1).mp h1
  obtain ⟨_, _, _, hr2⟩ := (run_ok_iff prices signals c2 r2).mp h2
  have hadj := simulateTrades_adjust prices signals c1 c2
  subst hr1
  subst hr2
  refine ⟨?_, ?_, ?_⟩
  · intro t ht
    exact ((simulateTrades_wf prices signals c1 hlen) t ht).2.2.2.2.1
  · intro hT1
    have hT1' : simulateTrades prices signals c1 = [] := hT1
    constructor
    · show simulateTrades prices signals c2 = []
      rw [hadj, hT1']
      rfl
    · show totalReturnPct (simulateTrades prices signals c2) =
        totalReturnPct (simulateTrades prices signals c1)
      rw [hadj, hT1']
      rfl
  · intro hne hfac
    show totalReturnPct (simulateTrades prices signals c2) <
      totalReturnPct (simulateTrades prices signals c1)
    have hne1 : simulateTrades prices signals c1 ≠ [] := hne
    have hdpos : (0 : ℚ) < 2 * (c2 - c1) := by linarith
    have hfactors : (simulateTrades prices signals c2).map growthFactor =
        ((simulateTrades prices signals c1).map growthFactor).map
          (fun x => x - 2 * (c2 - c1)) := by
      rw [hadj, List.map_map, List.map_map]
      apply List.map_congr_left
      intro t _
      show growthFactor (adjustTrade (c2 - c1) t) =
        growthFactor t - 2 * (c2 - c1)
      exact growthFactor_adjust (c2 - c1) t
    have hlne : (simulateTrades prices signals c1).map growthFactor ≠ [] :=
      by simpa using hne1
    have hnn : ∀ x ∈ (simulateTrades prices signals c1).map growthFactor,
        0 ≤ x - 2 * (c2 - c1) := by
      intro x hx
      obtain ⟨t, ht, rfl⟩ := List.mem_map.mp hx
      have ht2 : adjustTrade (c2 - c1) t ∈
          simulateTrades prices signals c2 := by
        rw [hadj]
        exact List.mem_map_of_mem _ ht
      have hb : 0 ≤ growthFactor (adjustTrade (c2 - c1) t) :=
        hfac (adjustTrade (c2 - c1) t) ht2
      have hgf := growthFactor_adjust (c2 - c1) t
      linarith [hgf ▸ hb]
    have hprod := prod_map_sub_lt (2 * (c2 - c1)) hdpos
      ((simulateTrades prices signals c1).map growthFactor) hlne hnn
    unfold totalReturnPct
    rw [hfactors]
    linarith

/-- Witness for C7 (amended): raising the commission from 0 to 0.001 on
the flat two-trade series strictly lowers `total_return_pct`
(0 versus -999/2500). -/
theorem C7_commission_monotonicity_amended_witness :
    run flatPrices twoTradeSignals 0 = Except.ok flatZeroResult ∧
    run flatPrices twoTradeSignals (1 / 1000) =
        Except.ok flatMilliResult ∧
    flatMilliResult.total_return_pct < flatZeroResult.total_return_pct :=
  ⟨flat_zero_run, flat_milli_run,
    (C7_commission_monotonicity_amended flatPrices twoTradeSignals 0
        (1 / 1000) flatZeroResult flatMilliResult flat_zero_run
        flat_milli_run (by norm_num)).2.2
      (by simp [flatZeroResult]) (by norm_num [flatMilliResult])⟩

theorem foldl_equity (trades : List Trade) :
    ∀ a : ℚ, trades.foldl (fun e t => e * (1 + t.pct_return / 100)) a =
      a * (trades.map growthFactor).prod := by
  induction trades with
  | nil => intro a; simp
  | cons t ts ih =>
    intro a
    simp only [List.foldl_cons, List.map_cons, List.prod_cons]
    rw [ih (a * (1 + t.pct_return / 100))]
    show a * (1 + t.pct_return / 100) * (ts.map growthFactor).prod =
      a * (growthFactor t * (ts.map growthFactor).prod)
    unfold growthFactor
    ring

/-- C8: `total_return_pct` is the compounded product of the per-trade
growth factors, expressed as the percentage gain of the fixed
10,000-unit starting capital — exactly the final value of the equity fold
the dashboard EquityCurve performs — and the trades deliver `pct_return`
in percentage units (the ×100 of the commission-adjusted fractional
return), which the dashboard divides back by 100. -/
theorem C8_total_return_matches_dashboard_equity :
    ∀ (prices : List PriceBar) (signals : List SignalPoint)
      (commission : ℚ) (r : BacktestResult),
      run prices signals commission = Except.ok r →
      r.total_return_pct =
          (dashboardFinalEquity r.trades / 10000 - 1) * 100 ∧
      dashboardFinalEquity r.trades =
          10000 * (r.trades.map growthFactor).prod ∧
      (∀ t ∈ r.trades,
        t.pct_return =
          ((t.exit_price / t.entry_price - 1) - 2 * commission) * 100) := by
  intro prices signals commission r h
  obtain ⟨hlen, hr, hwf⟩ := run_trades_wf prices signals commission r h
  have key : ∀ trades : List Trade,
      totalReturnPct trades =
        (dashboardFinalEquity trades / 10000 - 1) * 100 := by
    intro trades
    unfold totalReturnPct dashboardFinalEquity
    rw [foldl_equity trades 10000]
    ring
  refine ⟨?_, foldl_equity r.trades 10000,
    fun t ht => (hwf t ht).2.2.2.2.1⟩
  subst hr
  exact key (simulateTrades prices signals commission)

/-- Witness for C8 on the §8 scenario: the reported total return is the
percentage gain of the dashboard equity fold over the scenario trade
list. -/
theorem C8_total_return_matches_dashboard_equity_witness :
    run scenarioPrices scenarioSignals (1 / 1000) =
        Except.ok scenarioResult ∧
    scenarioResult.total_return_pct =
      (dashboardFinalEquity scenarioResult.trades / 10000 - 1) * 100 :=
  ⟨scenario_run,
    (C8_total_return_matches_dashboard_equity scenarioPrices
      scenarioSignals (1 / 1000) scenarioResult scenario_run).1⟩

/-- C9: the serialized response objects carry exactly the externally
required field names — `win_rate_%`, `n_trades`, `total_return_%`,
`buy_hold_%` and the nested trade list on a backtest object; `ai_verdict`,
`ai_confidence` and `indicator_breakdown` on the full-analysis envelope;
`backtest_win_rate_pct`, `backtest_trades` and `gap_pct` on
indicator-breakdown entries — the values pass through from the
(already ×100) percentage metrics verbatim, and every field name the
shipped dashboard components dereference is among the serialized keys. -/
theorem C9_response_field_names :
    (∀ r : BacktestResult,
      jsonKeys (serializeBacktest r) = backtestObjectReads ∧
      objLookup (serializeBacktest r) "win_rate_%" =
          some (JValue.num r.win_rate_pct) ∧
      objLookup (serializeBacktest r) "n_trades" =
          some (JValue.num (r.n_trades : ℚ)) ∧
      objLookup (serializeBacktest r) "total_return_%" =
          some (JValue.num r.total_return_pct) ∧
      objLookup (serializeBacktest r) "buy_hold_%" =
          some (JValue.num r.buy_hold_return_pct) ∧
      objLookup (serializeBacktest r) "trades" =
          some (JValue.arr (r.trades.map serializeTrade))) ∧
    (∀ (v : Verdict) (bd : List (String × JValue)),
      jsonKeys (serializeFullAnalysis v bd) = fullAnalysisReads ∧
      objLookup (serializeFullAnalysis v bd) "ai_verdict" =
          some (JValue.str (labelString v.label)) ∧
      objLookup (serializeFullAnalysis v bd) "ai_confidence" =
          some (JValue.num (v.confidence_pct : ℚ)) ∧
      objLookup (serializeFullAnalysis v bd) "indicator_breakdown" =
          some (JValue.obj bd)) ∧
    (∀ (sig : String) (r : BacktestResult),
      jsonKeys (serializeTAEntry sig r) =
        ["signal", "backtest_win_rate_pct", "backtest_trades"] ∧
      objLookup (serializeTAEntry sig r) "backtest_win_rate_pct" =
          some (JValue.num r.win_rate_pct) ∧
      objLookup (serializeTAEntry sig r) "backtest_trades" =
          some (JValue.num (r.n_trades : ℚ))) ∧
    (∀ (sig : String) (g : ℚ),
      jsonKeys (serializeGapEntry sig g) = ["signal", "gap_pct"] ∧
      objLookup (serializeGapEntry sig g) "gap_pct" =
        some (JValue.num g)) ∧
    (indicatorCardReads.all (fun n =>
        (["signal", "backtest_win_rate_pct",
          "backtest_trades"].contains n) ||
        (["signal", "gap_pct"].contains n)) = true) ∧
    (backtestObjectReads.all (fun n =>
        ["win_rate_%", "n_trades", "total_return_%", "buy_hold_%",
          "trades"].contains n) = true) ∧
    (fullAnalysisReads.all (fun n =>
        ["ai_verdict", "ai_confidence",
          "indicator_breakdown"].contains n) = true) :=
  ⟨fun _ => ⟨rfl, rfl, rfl, rfl, rfl, rfl⟩,
    fun _ _ => ⟨rfl, rfl, rfl, rfl⟩,
    fun _ _ => ⟨rfl, rfl, rfl⟩,
    fun _ _ => ⟨rfl, rfl⟩,
    by decide, by decide, by decide⟩

/-- C10: the dashboard signal helpers are total — a missing (undefined or
null) signal, the empty string, and any unrecognized label all map to the
neutral colour set without throwing, the missing-signal label renders as
NEUTRAL, and recognized labels are matched after lowercasing, hence
case-insensitively. -/
theorem C10_signal_helpers_total :
    sigColors Option.none = SIGNAL_COLORS_neutral ∧
    sigColors (some "") = SIGNAL_COLORS_neutral ∧
    sigLabel Option.none = "NEUTRAL" ∧
    sigLabel (some "") = "NEUTRAL" ∧
    sc Option.none = SIG_neutral ∧
    sc (some "") = SIG_neutral ∧
    sl Option.none = "NEUTRAL" ∧
    sl (some "") = "NEUTRAL" ∧
    (∀ s : String, SIGNAL_COLORS (jsToLowerCase s) = Option.none →
      sigColors (some s) = SIGNAL_COLORS_neutral) ∧
    (∀ (s : String) (c : SigColor),
      SIGNAL_COLORS (jsToLowerCase s) = some c → sigColors (some s) = c) ∧
    (∀ s : String, SIG (jsToLowerCase s) = Option.none →
      sc (some s) = SIG_neutral) ∧
    (∀ (s : String) (c : SigColorHex),
      SIG (jsToLowerCase s) = some c → sc (some s) = c) ∧
    sigColors (some "BUY") = SIGNAL_COLORS_buy ∧
    sigColors (some "BeArIsH") = SIGNAL_COLORS_sell ∧
    sc (some "HOLD") = SIG_neutral ∧
    sl (some "bullish") = "BULLISH" := by
  refine ⟨by decide, by decide, by decide, by decide, by decide, by decide,
    by decide, by decide, ?_, ?_, ?_, ?_, by decide, by decide, by decide,
    by decide⟩
  · intro s h
    simp [sigColors, h]
  · intro s c h
    simp [sigColors, h]
  · intro s h
    simp [sc, h]
  · intro s c h
    simp [sc, h]

/-- Witness for C10: an unrecognized mixed-case label falls back to the
neutral colour set, and a mixed-case recognized label matches
case-insensitively. -/
theorem C10_signal_helpers_total_witness :
    sigColors (some "WeIrD") = SIGNAL_COLORS_neutral ∧
    sc (some "SeLl") = SIG_sell :=
  ⟨C10_signal_helpers_total.2.2.2.2.2.2.2.2.1 "WeIrD" (by decide),
    C10_signal_helpers_total.2.2.2.2.2.2.2.2.2.2.2.1 "SeLl" SIG_sell
      (by decide)⟩

end Finbot
